import Mathlib

/-!
Verification of the LuminaLib Book Intelligence subsystem.

Shallow embedding of the prompt/token layer (src/app/prompts/templates.py),
the LLM adapters (src/app/adapters/llm/{mock,ollama,openai_adapter}.py),
the review service (src/app/services/review.py) and the consensus-version
state of `Book` (src/app/domain/models.py).

Python strings are modelled as `List Char` (sequences of Unicode code
points, matching Python's `len` and slicing semantics).
-/

namespace LuminaLib

/-- Python strings as lists of code points. -/
abbrev PyStr := List Char

/-- The opening brace character, written via its code point. -/
def lbrace : Char := '\x7b'

/-- The closing brace character, written via its code point. -/
def rbrace : Char := '\x7d'

/-!
Exceptions.  `PyExc` is the space of exception values the embedded code can
raise: Python's `KeyError`/`ValueError` (from `str.format`), the `httpx`
exceptions escaping `OllamaLLMAdapter._generate`, the OpenAI-SDK exceptions
escaping `OpenAILLMAdapter._generate`, FastAPI's `HTTPException` and
SQLAlchemy's `MultipleResultsFound`.  The repository defines no exception
class of its own (in particular no `GenerationFailed` and no
`MissingPlaceholder` class exists anywhere in the source).
-/

inductive PyExc where
  | keyError (key : PyStr)
  | valueError
  | httpxHTTPStatusError (code : Nat)
  | httpxTransportError
  | openaiAPIStatusError (code : Nat)
  | openaiAPIConnectionError
  | httpException (status : Nat) (detail : PyStr)
  | multipleResultsFound
deriving DecidableEq

/-! Token estimation (src/app/prompts/templates.py, lines 19-37). -/

/-- Source: `CHARS_PER_TOKEN = 4`. -/
def CHARS_PER_TOKEN : Nat := 4

/-- Source: `def estimate_tokens(text): return len(text) // CHARS_PER_TOKEN`. -/
def estimate_tokens (text : PyStr) : Nat :=
  text.length / CHARS_PER_TOKEN

/-- The literal truncation marker appended by `truncate_to_tokens`. -/
def TRUNCATION_MARKER : PyStr :=
  ("\n\n[Content truncated for processing]").data

/-- Python `str.rfind` restricted to a single character: the highest index
holding that character, `none` when absent (Python returns `-1`). -/
def rfindChar (l : List Char) (c : Char) : Option Nat :=
  match l with
  | [] => none
  | a :: rest =>
    match rfindChar rest c with
    | some i => some (i + 1)
    | none => if a = c then some 0 else none

/-- Source: `truncate_to_tokens(text, max_tokens)`.  The Python comparison
`last_period > max_chars * 0.8` is between an `int` and the IEEE double
`max_chars * 0.8`; since `4*m/5` is either an integer or at distance at
least `1/5` from one, and the double rounding error is below `2⁻⁵⁰·m`, the
comparison coincides with the exact rational comparison
`5 * last_period > 4 * max_chars` (and a `rfind` result of `-1` never
passes it). -/
def truncate_to_tokens (text : PyStr) (max_tokens : Nat) : PyStr :=
  let max_chars := max_tokens * CHARS_PER_TOKEN
  if text.length ≤ max_chars then text
  else
    let truncated := text.take max_chars
    let truncated2 :=
      match rfindChar truncated '.' with
      | some last_period =>
        if 4 * max_chars < 5 * last_period then truncated.take (last_period + 1)
        else truncated
      | none => truncated
    truncated2 ++ TRUNCATION_MARKER

/-! Facts about `rfindChar`. -/

theorem rfindChar_get {l : List Char} {c : Char} {i : Nat}
    (h : rfindChar l c = some i) : l[i]? = some c := by
  induction l generalizing i with
  | nil => simp [rfindChar] at h
  | cons a rest ih =>
    simp only [rfindChar] at h
    cases hr : rfindChar rest c with
    | some j =>
      rw [hr] at h
      cases h
      simpa using ih hr
    | none =>
      rw [hr] at h
      by_cases hac : a = c
      · simp [hac] at h
        cases h
        simp [hac]
      · simp [hac] at h

theorem rfindChar_lt_length {l : List Char} {c : Char} {i : Nat}
    (h : rfindChar l c = some i) : i < l.length := by
  have := rfindChar_get h
  exact (List.getElem?_eq_some.mp this).1

theorem rfindChar_ge {l : List Char} {c : Char} {p : Nat}
    (h : l[p]? = some c) : ∃ i, rfindChar l c = some i ∧ p ≤ i := by
  induction l generalizing p with
  | nil => simp at h
  | cons a rest ih =>
    cases p with
    | zero =>
      simp at h
      subst h
      cases hr : rfindChar rest a with
      | some j => exact ⟨j + 1, by simp [rfindChar, hr], by omega⟩
      | none => exact ⟨0, by simp [rfindChar, hr], le_refl 0⟩
    | succ p' =>
      simp at h
      obtain ⟨j, hj, hpj⟩ := ih h
      exact ⟨j + 1, by simp [rfindChar, hj], by omega⟩

/-- C8: `estimate_tokens` is the integer floor of the character length
divided by 4: it equals `len / 4`, and satisfies the floor
characterization `est * 4 ≤ len < (est + 1) * 4`. -/
theorem estimate_tokens_floor_div_four (text : PyStr) :
    estimate_tokens text = text.length / 4
    ∧ estimate_tokens text * 4 ≤ text.length
    ∧ text.length < (estimate_tokens text + 1) * 4 := by
  refine ⟨rfl, ?_, ?_⟩ <;>
  · simp only [estimate_tokens, CHARS_PER_TOKEN]
    omega

/-- C1 (amended): for text longer than `cap * 4` characters, the result of
`truncate_to_tokens` is a body of at most `cap * 4` characters followed by
the truncation marker, the total length is at most `cap * 4` plus the
marker length, and whenever a sentence terminator occurs at a (0-based)
position strictly past 80% of the `cap * 4`-character window, the body
ends at a sentence terminator. -/
theorem truncate_marker_and_sentence_cut (text : PyStr) (cap : Nat)
    (_hcap : 0 < cap) (hlen : cap * 4 < text.length) :
    ∃ body, truncate_to_tokens text cap = body ++ TRUNCATION_MARKER
      ∧ body.length ≤ cap * 4
      ∧ (truncate_to_tokens text cap).length ≤ cap * 4 + TRUNCATION_MARKER.length
      ∧ ((∃ p, p < cap * 4 ∧ text[p]? = some '.' ∧ 4 * (cap * 4) < 5 * p) →
          body.getLast? = some '.') := by
  have hle : ¬ text.length ≤ cap * CHARS_PER_TOKEN := by
    simp only [CHARS_PER_TOKEN]
    omega
  have htl : (text.take (cap * CHARS_PER_TOKEN)).length = cap * 4 := by
    simp only [List.length_take, CHARS_PER_TOKEN]
    omega
  cases hr : rfindChar (text.take (cap * CHARS_PER_TOKEN)) '.' with
  | none =>
    refine ⟨text.take (cap * CHARS_PER_TOKEN), ?_, ?_, ?_, ?_⟩
    · simp only [truncate_to_tokens, hle, if_false, hr]
    · omega
    · simp only [truncate_to_tokens, hle, if_false, hr, List.length_append]
      omega
    · rintro ⟨p, hp, hpc, _⟩
      have hpc' : (text.take (cap * CHARS_PER_TOKEN))[p]? = some '.' := by
        rw [List.getElem?_take_of_lt (by simp only [CHARS_PER_TOKEN]; omega : p < cap * CHARS_PER_TOKEN)]
        exact hpc
      obtain ⟨i, hi, _⟩ := rfindChar_ge hpc'
      rw [hr] at hi
      exact absurd hi (by simp)
  | some q =>
    have hq : (text.take (cap * CHARS_PER_TOKEN))[q]? = some '.' := rfindChar_get hr
    have hql : q < cap * 4 := by
      have := rfindChar_lt_length hr
      omega
    by_cases hcond : 4 * (cap * CHARS_PER_TOKEN) < 5 * q
    · refine ⟨(text.take (cap * CHARS_PER_TOKEN)).take (q + 1), ?_, ?_, ?_, ?_⟩
      · simp only [truncate_to_tokens, hle, if_false, hr, hcond, if_true]
      · simp only [List.length_take, CHARS_PER_TOKEN]
        omega
      · simp only [truncate_to_tokens, hle, if_false, hr, hcond, if_true,
          List.length_append, List.length_take]
        omega
      · intro _
        have hlt : ((text.take (cap * CHARS_PER_TOKEN)).take (q + 1)).length = q + 1 := by
          simp only [List.length_take, CHARS_PER_TOKEN]
          omega
        rw [List.getLast?_eq_getElem?, hlt]
        simpa [List.getElem?_take_of_lt (by omega : q < q + 1)] using hq
    · refine ⟨text.take (cap * CHARS_PER_TOKEN), ?_, ?_, ?_, ?_⟩
      · simp only [truncate_to_tokens, hle, if_false, hr, hcond, if_false]
      · omega
      · simp only [truncate_to_tokens, hle, if_false, hr, hcond, if_false,
          List.length_append]
        omega
      · rintro ⟨p, hp, hpc, hp80⟩
        have hpc' : (text.take (cap * CHARS_PER_TOKEN))[p]? = some '.' := by
          rw [List.getElem?_take_of_lt (by simp only [CHARS_PER_TOKEN]; omega : p < cap * CHARS_PER_TOKEN)]
          exact hpc
        obtain ⟨i, hi, hpi⟩ := rfindChar_ge hpc'
        rw [hr] at hi
        have : i = q := by
          cases hi
          rfl
        simp only [CHARS_PER_TOKEN] at hcond
        omega

/-- Witness for C1 at text `"aaaaaa"` (6 chars) with cap 1. -/
theorem truncate_marker_and_sentence_cut_witness :
    ∃ body, truncate_to_tokens (("aaaaaa").data) 1 = body ++ TRUNCATION_MARKER
      ∧ body.length ≤ 1 * 4
      ∧ (truncate_to_tokens (("aaaaaa").data) 1).length ≤ 1 * 4 + TRUNCATION_MARKER.length
      ∧ ((∃ p, p < 1 * 4 ∧ (("aaaaaa").data)[p]? = some '.' ∧ 4 * (1 * 4) < 5 * p) →
          body.getLast? = some '.') :=
  truncate_marker_and_sentence_cut (("aaaaaa").data) 1 (by decide) (by decide)

/-- Counterexample for C1 as stated: the window is the first
`5 * 4 = 20` characters, the last 20% of that window starts at index
`20 - 20 / 5 = 16`, and the input has its sentence terminator exactly at
index 16 — within the last 20% — yet the code cuts mid-sentence (the
Python condition `last_period > max_chars * 0.8` is strict, so index 16
fails it). -/
theorem truncate_last20_counterexample :
    ((("aaaaaaaaaaaaaaaa.aaaa").data).length = 21
      ∧ (("aaaaaaaaaaaaaaaa.aaaa").data)[16]? = some '.'
      ∧ 5 * 4 - (5 * 4) / 5 ≤ 16)
    ∧ truncate_to_tokens (("aaaaaaaaaaaaaaaa.aaaa").data) 5
        = (("aaaaaaaaaaaaaaaa.aaa").data) ++ TRUNCATION_MARKER
    ∧ (("aaaaaaaaaaaaaaaa.aaa").data).getLast? ≠ some '.' := by
  decide

/-! Prompt templates (src/app/prompts/templates.py, lines 42-139). -/

/-- Source: the frozen dataclass `PromptTemplate`. -/
structure PromptTemplate where
  name : PyStr
  version : PyStr
  system : PyStr
  user_template : PyStr
  max_tokens : Nat := 1024
  input_token_limit : Nat := 4000
  tags : List PyStr := []
deriving DecidableEq

/-- The rendered message pair: the dict with keys `system` and `user`
returned by `render`. -/
structure Messages where
  system : PyStr
  user : PyStr
deriving DecidableEq

/-- Keyword arguments: Python `**kwargs` as an association list (keys are
unique in a Python call, so first-match lookup is dict lookup). -/
abbrev Kwargs := List (PyStr × PyStr)

/-- Dict lookup in keyword arguments. -/
def kwLookup (kwargs : Kwargs) (key : PyStr) : Option PyStr :=
  match kwargs with
  | [] => none
  | (k, v) :: rest => if k = key then some v else kwLookup rest key

/-- Python `str.format(**kwargs)` with named fields, as used by
`PromptTemplate.render`: a left-to-right scan; `{name}` is replaced by the
looked-up value (a missing name raises `KeyError(name)`); doubled braces
are escapes; a stray or unterminated brace raises `ValueError`.  The first
argument is the scanner mode: `none` for literal text, `some acc` while
inside a replacement field whose name (reversed) is `acc`.  Substituted
values are not rescanned, matching Python. -/
def substResult (v? : Option PyStr) (nm : PyStr)
    (tail : Except PyExc (List Char)) : Except PyExc (List Char) :=
  match v? with
  | some v => (fun r => v ++ r) <$> tail
  | none => .error (.keyError nm)

def pyFmt (kwargs : Kwargs) : Option (List Char) → List Char → Except PyExc (List Char)
  | none, [] => .ok []
  | some _, [] => .error .valueError
  | some acc, c :: rest =>
    if c = rbrace then
      substResult (kwLookup kwargs acc.reverse) acc.reverse (pyFmt kwargs none rest)
    else pyFmt kwargs (some (c :: acc)) rest
  | none, [c] =>
    if c = lbrace then .error .valueError
    else if c = rbrace then .error .valueError
    else .ok [c]
  | none, c1 :: c2 :: rest =>
    if c1 = lbrace then
      if c2 = lbrace then (fun s => lbrace :: s) <$> pyFmt kwargs none rest
      else pyFmt kwargs (some []) (c2 :: rest)
    else if c1 = rbrace then
      if c2 = rbrace then (fun s => rbrace :: s) <$> pyFmt kwargs none rest
      else .error .valueError
    else (fun s => c1 :: s) <$> pyFmt kwargs none (c2 :: rest)

/-- The replacement-field names of a template, in scan order, following
exactly the scanner of `pyFmt`; `none` when the template is malformed. -/
def pyTemplateVars : Option (List Char) → List Char → Option (List PyStr)
  | none, [] => some []
  | some _, [] => none
  | some acc, c :: rest =>
    if c = rbrace then (fun vs => acc.reverse :: vs) <$> pyTemplateVars none rest
    else pyTemplateVars (some (c :: acc)) rest
  | none, [c] =>
    if c = lbrace then none
    else if c = rbrace then none
    else some []
  | none, c1 :: c2 :: rest =>
    if c1 = lbrace then
      if c2 = lbrace then pyTemplateVars none rest
      else pyTemplateVars (some []) (c2 :: rest)
    else if c1 = rbrace then
      if c2 = rbrace then pyTemplateVars none rest
      else none
    else pyTemplateVars none (c2 :: rest)

/-- Source: `PromptTemplate.render`: format `user_template` with the
keyword arguments and pair it with the literal system message. -/
def PromptTemplate.render (t : PromptTemplate) (kwargs : Kwargs) :
    Except PyExc Messages :=
  (pyFmt kwargs none t.user_template).map (fun u => { system := t.system, user := u })

/-- Source: `PromptTemplate.render_with_truncation`: if `content_key` is
among the keyword arguments, replace its value by its truncation to
`input_token_limit` tokens, then render. -/
def PromptTemplate.render_with_truncation (t : PromptTemplate) (content_key : PyStr)
    (kwargs : Kwargs) : Except PyExc Messages :=
  let kwargs2 :=
    if (kwLookup kwargs content_key).isSome then
      kwargs.map (fun kv =>
        if kv.1 = content_key then (kv.1, truncate_to_tokens kv.2 t.input_token_limit)
        else kv)
    else kwargs
  t.render kwargs2

/-- Source: the `SUMMARIZE_BOOK` template (adjacent Python string literals
are modelled as the same concatenation). -/
def SUMMARIZE_BOOK : PromptTemplate where
  name := ("summarize_book").data
  version := ("1.2.0").data
  system :=
    (("You are a skilled literary analyst working for a digital library system. "
      ++ "Your role is to produce clear, informative book summaries suitable for a "
      ++ "library catalog.\n\n"
      ++ "Guidelines:\n"
      ++ "- Write 3-5 concise paragraphs.\n"
      ++ "- Cover main themes, structure, and key arguments or plot points.\n"
      ++ "- Do NOT include spoilers for fiction.\n"
      ++ "- Use a neutral, professional tone.\n"
      ++ "- Mention who would benefit most from reading this book.\n"
      ++ "- If the content appears to be partial or corrupted, note this clearly.")).data
  user_template :=
    (("Please summarize the following book content.\n\n").data)
      ++ (("--- BOOK CONTENT (START) ---\n").data)
      ++ (("{content}\n").data)
      ++ (("--- BOOK CONTENT (END) ---\n\n").data)
      ++ (("Provide a comprehensive summary in 3-5 paragraphs:").data)
  max_tokens := 1024
  input_token_limit := 4000
  tags := [(("summarization").data), (("book").data), (("ingestion").data)]

/-- Source: the `ANALYZE_REVIEWS` template. -/
def ANALYZE_REVIEWS : PromptTemplate where
  name := ("analyze_reviews").data
  version := ("1.1.0").data
  system :=
    (("You are a sentiment analysis expert specializing in literary reviews. "
      ++ "Your task is to synthesize multiple reader opinions into a balanced, "
      ++ "nuanced consensus.\n\n"
      ++ "Guidelines:\n"
      ++ "- Produce 2-3 paragraphs.\n"
      ++ "- Identify areas of agreement and disagreement among reviewers.\n"
      ++ "- Note the overall sentiment (positive, mixed, negative) with nuance.\n"
      ++ "- Highlight commonly praised strengths and commonly cited weaknesses.\n"
      ++ "- Conclude with who would likely enjoy this book.\n"
      ++ "- If a previous consensus exists, update it — don't start from scratch.")).data
  user_template :=
    (("{previous_consensus_section}").data)
      ++ (("Below are reader reviews for this book:\n\n").data)
      ++ (("--- REVIEWS (START) ---\n").data)
      ++ (("{reviews_text}\n").data)
      ++ (("--- REVIEWS (END) ---\n\n").data)
      ++ (("Synthesize these into an updated consensus summary:").data)
  max_tokens := 512
  input_token_limit := 3000
  tags := [(("sentiment").data), (("reviews").data), (("consensus").data)]

/-- Source: `render_book_summary_prompt`. -/
def render_book_summary_prompt (content : PyStr) : Except PyExc Messages :=
  SUMMARIZE_BOOK.render_with_truncation (("content").data)
    [((("content").data), content)]

/-- An input review for `render_review_consensus_prompt`: a dict with
`rating` (int) and `text` (str) keys. -/
structure ReviewIn where
  rating : Nat
  text : PyStr
deriving DecidableEq

/-- One review block: the f-string `[Rating: {rating}/5]\n{text}`. -/
def reviewBlock (r : ReviewIn) : PyStr :=
  (("[Rating: ").data) ++ ((toString r.rating).data) ++ (("/5]\n").data) ++ r.text

/-- Python `sep.join(xs)`. -/
def pyJoin (sep : PyStr) : List PyStr → PyStr
  | [] => []
  | [x] => x
  | x :: y :: rest => x ++ sep ++ pyJoin sep (y :: rest)

/-- The previous-consensus section built by `render_review_consensus_prompt`:
empty unless `current_consensus` is truthy (Python `if current_consensus:`
is false for `None` and for the empty string alike). -/
def previousSection (current_consensus : Option PyStr) : PyStr :=
  match current_consensus with
  | none => []
  | some c =>
    if c = [] then []
    else (("--- PREVIOUS CONSENSUS (START) ---\n").data) ++ c
      ++ (("\n--- PREVIOUS CONSENSUS (END) ---\n\n").data)
      ++ (("Update the above consensus with the new reviews below.\n\n").data)

/-- Source: `render_review_consensus_prompt`. -/
def render_review_consensus_prompt (reviews : List ReviewIn)
    (current_consensus : Option PyStr) : Except PyExc Messages :=
  let reviews_text := pyJoin (("\n\n").data) (reviews.map reviewBlock)
  ANALYZE_REVIEWS.render_with_truncation (("reviews_text").data)
    [((("reviews_text").data), reviews_text),
     ((("previous_consensus_section").data), previousSection current_consensus)]

/-! Behavior of the `str.format` scanner. -/

/-- The missing-placeholder predicate used below: the first scanned field
name that is unbound in the keyword arguments. -/
def firstMissing (kwargs : Kwargs) (vars : List PyStr) : Option PyStr :=
  List.find? (fun x => (kwLookup kwargs x).isNone) vars

theorem pyFmt_cases_aux (n : Nat) : ∀ (tmpl : List Char), tmpl.length ≤ n →
    ∀ (field : Option (List Char)) (vars : List PyStr) (kwargs : Kwargs),
    pyTemplateVars field tmpl = some vars →
    ((∀ v, firstMissing kwargs vars = some v →
        pyFmt kwargs field tmpl = Except.error (PyExc.keyError v))
     ∧ (firstMissing kwargs vars = none →
        ∃ out, pyFmt kwargs field tmpl = Except.ok out)) := by
  induction n with
  | zero =>
    intro tmpl hlen field vars kwargs h
    have ht : tmpl = [] := List.eq_nil_of_length_eq_zero (by omega)
    subst ht
    cases field with
    | none =>
      rw [pyTemplateVars] at h
      cases h
      exact ⟨fun v hv => by simp [firstMissing] at hv, fun _ => ⟨[], by rw [pyFmt]⟩⟩
    | some acc =>
      rw [pyTemplateVars] at h
      simp at h
  | succ n ih =>
    intro tmpl hlen field vars kwargs h
    cases tmpl with
    | nil =>
      cases field with
      | none =>
        rw [pyTemplateVars] at h
        cases h
        exact ⟨fun v hv => by simp [firstMissing] at hv, fun _ => ⟨[], by rw [pyFmt]⟩⟩
      | some acc =>
        rw [pyTemplateVars] at h
        simp at h
    | cons c rest =>
      have hlen' : rest.length ≤ n := by simp at hlen; omega
      cases field with
      | some acc =>
        rw [pyTemplateVars] at h
        by_cases hc : c = rbrace
        · rw [if_pos hc] at h
          cases hv : pyTemplateVars none rest with
          | none => rw [hv] at h; simp at h
          | some vs' =>
            rw [hv] at h
            have h' : acc.reverse :: vs' = vars := by simpa using h
            subst h'
            have hrec := ih rest hlen' none vs' kwargs hv
            cases hw : kwLookup kwargs acc.reverse with
            | none =>
              constructor
              · intro v hfv
                simp only [firstMissing] at hfv
                rw [List.find?_cons_of_pos _ (by simp [hw])] at hfv
                cases hfv
                rw [pyFmt, if_pos hc, hw]
                rfl
              · intro hfn
                simp only [firstMissing] at hfn
                rw [List.find?_cons_of_pos _ (by simp [hw])] at hfn
                simp at hfn
            | some w =>
              constructor
              · intro v hfv
                simp only [firstMissing] at hfv
                rw [List.find?_cons_of_neg _ (by simp [hw])] at hfv
                have he := hrec.1 v hfv
                rw [pyFmt, if_pos hc, hw, he]
                rfl
              · intro hfn
                simp only [firstMissing] at hfn
                rw [List.find?_cons_of_neg _ (by simp [hw])] at hfn
                obtain ⟨out, hout⟩ := hrec.2 hfn
                refine ⟨w ++ out, ?_⟩
                rw [pyFmt, if_pos hc, hw, hout]
                rfl
        · rw [if_neg hc] at h
          have hrec := ih rest hlen' (some (c :: acc)) vars kwargs h
          constructor
          · intro v hfv
            rw [pyFmt, if_neg hc]
            exact hrec.1 v hfv
          · intro hfn
            obtain ⟨out, hout⟩ := hrec.2 hfn
            exact ⟨out, by rw [pyFmt, if_neg hc]; exact hout⟩
      | none =>
        cases rest with
        | nil =>
          rw [pyTemplateVars] at h
          by_cases h1 : c = lbrace
          · rw [if_pos h1] at h
            simp at h
          · rw [if_neg h1] at h
            by_cases h2 : c = rbrace
            · rw [if_pos h2] at h
              simp at h
            · rw [if_neg h2] at h
              cases h
              constructor
              · intro v hv
                simp [firstMissing] at hv
              · intro _
                exact ⟨[c], by rw [pyFmt, if_neg h1, if_neg h2]⟩
        | cons c2 rest2 =>
          have hlen2 : rest2.length ≤ n := by simp at hlen; omega
          have hlen1 : (c2 :: rest2).length ≤ n := by simp at hlen ⊢; omega
          rw [pyTemplateVars] at h
          by_cases h1 : c = lbrace
          · rw [if_pos h1] at h
            by_cases h2 : c2 = lbrace
            · rw [if_pos h2] at h
              have hrec := ih rest2 hlen2 none vars kwargs h
              constructor
              · intro v hfv
                rw [pyFmt, if_pos h1, if_pos h2, hrec.1 v hfv]
                rfl
              · intro hfn
                obtain ⟨out, hout⟩ := hrec.2 hfn
                exact ⟨lbrace :: out, by rw [pyFmt, if_pos h1, if_pos h2, hout]; rfl⟩
            · rw [if_neg h2] at h
              have hrec := ih (c2 :: rest2) hlen1 (some []) vars kwargs h
              constructor
              · intro v hfv
                rw [pyFmt, if_pos h1, if_neg h2]
                exact hrec.1 v hfv
              · intro hfn
                obtain ⟨out, hout⟩ := hrec.2 hfn
                exact ⟨out, by rw [pyFmt, if_pos h1, if_neg h2]; exact hout⟩
          · rw [if_neg h1] at h
            by_cases h2 : c = rbrace
            · rw [if_pos h2] at h
              by_cases h3 : c2 = rbrace
              · rw [if_pos h3] at h
                have hrec := ih rest2 hlen2 none vars kwargs h
                constructor
                · intro v hfv
                  rw [pyFmt, if_neg h1, if_pos h2, if_pos h3, hrec.1 v hfv]
                  rfl
                · intro hfn
                  obtain ⟨out, hout⟩ := hrec.2 hfn
                  exact ⟨rbrace :: out,
                    by rw [pyFmt, if_neg h1, if_pos h2, if_pos h3, hout]; rfl⟩
              · rw [if_neg h3] at h
                simp at h
            · rw [if_neg h2] at h
              have hrec := ih (c2 :: rest2) hlen1 none vars kwargs h
              constructor
              · intro v hfv
                rw [pyFmt, if_neg h1, if_neg h2, hrec.1 v hfv]
                rfl
              · intro hfn
                obtain ⟨out, hout⟩ := hrec.2 hfn
                exact ⟨c :: out, by rw [pyFmt, if_neg h1, if_neg h2, hout]; rfl⟩

/-- When a scanned field name is unbound, formatting raises `KeyError` on
the first such name. -/
theorem pyFmt_missing_key {tmpl : List Char} {vars : List PyStr}
    {kwargs : Kwargs} {v : PyStr}
    (h : pyTemplateVars none tmpl = some vars)
    (hf : firstMissing kwargs vars = some v) :
    pyFmt kwargs none tmpl = Except.error (PyExc.keyError v) :=
  (pyFmt_cases_aux tmpl.length tmpl (le_refl _) none vars kwargs h).1 v hf

/-- When every scanned field name is bound, formatting succeeds. -/
theorem pyFmt_total {tmpl : List Char} {vars : List PyStr} {kwargs : Kwargs}
    (h : pyTemplateVars none tmpl = some vars)
    (hf : firstMissing kwargs vars = none) :
    ∃ out, pyFmt kwargs none tmpl = Except.ok out :=
  (pyFmt_cases_aux tmpl.length tmpl (le_refl _) none vars kwargs h).2 hf

/-- C4: for every prompt template whose `user_template` scans to a list of
placeholder names, and every keyword-argument assignment that leaves at
least one of those names unbound, `render` fails, and the failing
condition identifies a missing placeholder: it is Python's `KeyError`
carrying an unbound placeholder name, propagated uncaught to the caller
of `render`. -/
theorem render_missing_placeholder_fails (t : PromptTemplate) (kwargs : Kwargs)
    (vars : List PyStr) (hvars : pyTemplateVars none t.user_template = some vars)
    (hmiss : ∃ v ∈ vars, kwLookup kwargs v = none) :
    ∃ v ∈ vars, kwLookup kwargs v = none
      ∧ t.render kwargs = Except.error (PyExc.keyError v) := by
  have hsome : (firstMissing kwargs vars).isSome := by
    refine List.find?_isSome.mpr ?_
    obtain ⟨v, hv, hn⟩ := hmiss
    exact ⟨v, hv, by simp [hn]⟩
  obtain ⟨v, hfv⟩ := Option.isSome_iff_exists.mp hsome
  refine ⟨v, List.mem_of_find?_eq_some hfv, ?_, ?_⟩
  · have := List.find?_some hfv
    simpa using this
  · unfold PromptTemplate.render
    rw [pyFmt_missing_key hvars hfv]
    rfl

set_option maxRecDepth 8000 in
/-- Witness for C4: rendering `ANALYZE_REVIEWS` with no keyword arguments
fails with a `KeyError` on an unbound placeholder. -/
theorem render_missing_placeholder_fails_witness :
    ∃ v ∈ [(("previous_consensus_section").data), (("reviews_text").data)],
      kwLookup [] v = none
      ∧ ANALYZE_REVIEWS.render [] = Except.error (PyExc.keyError v) :=
  render_missing_placeholder_fails ANALYZE_REVIEWS []
    [(("previous_consensus_section").data), (("reviews_text").data)]
    (by decide) (by decide)

/-! Rendering depends on the keyword arguments only through lookups. -/

theorem pyFmt_congr_aux (n : Nat) : ∀ (tmpl : List Char), tmpl.length ≤ n →
    ∀ (field : Option (List Char)) (k1 k2 : Kwargs),
    (∀ key, kwLookup k1 key = kwLookup k2 key) →
    pyFmt k1 field tmpl = pyFmt k2 field tmpl := by
  induction n with
  | zero =>
    intro tmpl hlen field k1 k2 _
    have ht : tmpl = [] := List.eq_nil_of_length_eq_zero (by omega)
    subst ht
    cases field with
    | none =>
      conv_lhs => rw [pyFmt]
      conv_rhs => rw [pyFmt]
    | some acc =>
      conv_lhs => rw [pyFmt]
      conv_rhs => rw [pyFmt]
  | succ n ih =>
    intro tmpl hlen field k1 k2 hk
    cases tmpl with
    | nil =>
      cases field with
      | none =>
        conv_lhs => rw [pyFmt]
        conv_rhs => rw [pyFmt]
      | some acc =>
        conv_lhs => rw [pyFmt]
        conv_rhs => rw [pyFmt]
    | cons c rest =>
      have hlen' : rest.length ≤ n := by simp at hlen; omega
      cases field with
      | some acc =>
        conv_lhs => rw [pyFmt]
        conv_rhs => rw [pyFmt]
        by_cases hc : c = rbrace
        · simp only [if_pos hc]
          rw [hk acc.reverse, ih rest hlen' none k1 k2 hk]
        · simp only [if_neg hc]
          exact ih rest hlen' (some (c :: acc)) k1 k2 hk
      | none =>
        cases rest with
        | nil =>
          conv_lhs => rw [pyFmt]
          conv_rhs => rw [pyFmt]
        | cons c2 rest2 =>
          have hlen2 : rest2.length ≤ n := by simp at hlen; omega
          have hlen1 : (c2 :: rest2).length ≤ n := by simp at hlen ⊢; omega
          conv_lhs => rw [pyFmt]
          conv_rhs => rw [pyFmt]
          by_cases h1 : c = lbrace
          · simp only [if_pos h1]
            by_cases h2 : c2 = lbrace
            · simp only [if_pos h2]
              rw [ih rest2 hlen2 none k1 k2 hk]
            · simp only [if_neg h2]
              exact ih (c2 :: rest2) hlen1 (some []) k1 k2 hk
          · simp only [if_neg h1]
            by_cases h2 : c = rbrace
            · simp only [if_pos h2]
              by_cases h3 : c2 = rbrace
              · simp only [if_pos h3]
                rw [ih rest2 hlen2 none k1 k2 hk]
              · simp only [if_neg h3]
            · simp only [if_neg h2]
              rw [ih (c2 :: rest2) hlen1 none k1 k2 hk]

theorem pyFmt_congr {tmpl : List Char} {field : Option (List Char)}
    {k1 k2 : Kwargs} (hk : ∀ key, kwLookup k1 key = kwLookup k2 key) :
    pyFmt k1 field tmpl = pyFmt k2 field tmpl :=
  pyFmt_congr_aux tmpl.length tmpl (le_refl _) field k1 k2 hk

theorem kwLookup_map_replace (k : Kwargs) (ck key : PyStr) (f : PyStr → PyStr) :
    kwLookup (k.map (fun kv => if kv.1 = ck then (kv.1, f kv.2) else kv)) key
      = if key = ck then (kwLookup k key).map f else kwLookup k key := by
  induction k with
  | nil =>
    simp only [List.map_nil, kwLookup]
    split <;> rfl
  | cons kv rest ih =>
    obtain ⟨a, b⟩ := kv
    simp only [List.map_cons]
    by_cases hac : a = ck
    · rw [if_pos hac]
      simp only [kwLookup]
      by_cases hakey : a = key
      · rw [if_pos hakey, if_pos hakey, if_pos (hakey.symm.trans hac)]
        rfl
      · rw [if_neg hakey, if_neg hakey, ih]
    · rw [if_neg hac]
      simp only [kwLookup]
      by_cases hakey : a = key
      · have hkc : ¬ key = ck := fun h => hac (hakey.trans h)
        rw [if_pos hakey, if_pos hakey, if_neg hkc]
      · rw [if_neg hakey, if_neg hakey, ih]

theorem kwLookup_map_truncate (k : Kwargs) (ck key : PyStr) (lim : Nat) :
    kwLookup (k.map (fun kv =>
        if kv.1 = ck then (kv.1, truncate_to_tokens kv.2 lim) else kv)) key
      = if key = ck then (kwLookup k key).map (fun v => truncate_to_tokens v lim)
        else kwLookup k key :=
  kwLookup_map_replace k ck key (fun v => truncate_to_tokens v lim)

/-- C6: rendering is deterministic and a pure function of the template and
the keyword arguments: two keyword assignments with identical lookups
render identically, both for `render` and for `render_with_truncation`
(and the embedding is a total function, so rendering performs no network
access or side effects). -/
theorem render_pure_deterministic (t : PromptTemplate) (k1 k2 : Kwargs)
    (hk : ∀ key, kwLookup k1 key = kwLookup k2 key) :
    t.render k1 = t.render k2
    ∧ ∀ content_key, t.render_with_truncation content_key k1
        = t.render_with_truncation content_key k2 := by
  constructor
  · unfold PromptTemplate.render
    rw [pyFmt_congr hk]
  · intro ck
    simp only [PromptTemplate.render_with_truncation, PromptTemplate.render]
    have hsome : (kwLookup k1 ck).isSome = (kwLookup k2 ck).isSome := by
      rw [hk]
    by_cases hs : (kwLookup k1 ck).isSome = true
    · rw [if_pos hs, if_pos (hsome ▸ hs)]
      have hk2 : ∀ key,
          kwLookup (k1.map (fun kv =>
            if kv.1 = ck then (kv.1, truncate_to_tokens kv.2 t.input_token_limit)
            else kv)) key
          = kwLookup (k2.map (fun kv =>
            if kv.1 = ck then (kv.1, truncate_to_tokens kv.2 t.input_token_limit)
            else kv)) key := by
        intro key
        rw [kwLookup_map_truncate, kwLookup_map_truncate, hk]
      rw [pyFmt_congr hk2]
    · rw [if_neg hs, if_neg (fun hh => hs (by rw [hsome]; exact hh))]
      rw [pyFmt_congr hk]

/-- Two keyword-argument lists used in the C6 witness: same bindings in a
different order. -/
def kwA : Kwargs := [((("a").data), (("x").data)), ((("b").data), (("y").data))]

def kwB : Kwargs := [((("b").data), (("y").data)), ((("a").data), (("x").data))]

theorem kwAB_ext : ∀ key, kwLookup kwA key = kwLookup kwB key := by
  intro key
  by_cases h1 : (("a").data) = key
  · subst h1
    decide
  · by_cases h2 : (("b").data) = key
    · subst h2
      decide
    · simp only [kwA, kwB, kwLookup, if_neg h1, if_neg h2]

/-- Witness for C6 at `SUMMARIZE_BOOK` with reordered keyword arguments. -/
theorem render_pure_deterministic_witness :
    SUMMARIZE_BOOK.render kwA = SUMMARIZE_BOOK.render kwB
    ∧ SUMMARIZE_BOOK.render_with_truncation (("content").data) kwA
        = SUMMARIZE_BOOK.render_with_truncation (("content").data) kwB := by
  have h := render_pure_deterministic SUMMARIZE_BOOK kwA kwB kwAB_ext
  exact ⟨h.1, h.2 (("content").data)⟩

/-! Symbolic evaluation of the scanner on well-formed template segments. -/

theorem pyFmt_literal (kwargs : Kwargs) (lit rest : List Char)
    (hb : ∀ c ∈ lit, c ≠ lbrace ∧ c ≠ rbrace) :
    pyFmt kwargs none (lit ++ rest) = (fun s => lit ++ s) <$> pyFmt kwargs none rest := by
  induction lit with
  | nil =>
    cases hres : pyFmt kwargs none rest with
    | error e => rw [List.nil_append, hres]; rfl
    | ok out => rw [List.nil_append, hres]; rfl
  | cons c lit' ih =>
    have hc := hb c (List.mem_cons_self c lit')
    have hb' : ∀ x ∈ lit', x ≠ lbrace ∧ x ≠ rbrace :=
      fun x hx => hb x (List.mem_cons_of_mem c hx)
    cases hx : lit' ++ rest with
    | nil =>
      have h1 : lit' = [] := (List.append_eq_nil.mp hx).1
      have h2 : rest = [] := (List.append_eq_nil.mp hx).2
      subst h1
      subst h2
      simp only [List.cons_append, List.nil_append]
      rw [pyFmt]
      rw [pyFmt, if_neg hc.1, if_neg hc.2]
      rfl
    | cons c2 rest2 =>
      have hsh : (c :: lit') ++ rest = c :: c2 :: rest2 := by
        rw [List.cons_append, hx]
      rw [hsh, pyFmt, if_neg hc.1, if_neg hc.2, ← hx, ih hb']
      cases hres : pyFmt kwargs none rest with
      | error e => rfl
      | ok out => rfl

theorem pyFmt_field_scan (kwargs : Kwargs) (nm rest : List Char) :
    ∀ acc, (∀ c ∈ nm, c ≠ rbrace) →
    pyFmt kwargs (some acc) (nm ++ rbrace :: rest)
      = substResult (kwLookup kwargs (acc.reverse ++ nm)) (acc.reverse ++ nm)
          (pyFmt kwargs none rest) := by
  induction nm with
  | nil =>
    intro acc _
    simp only [List.nil_append, List.append_nil]
    rw [pyFmt, if_pos rfl]
  | cons n1 nm' ih =>
    intro acc hb
    have h1 : n1 ≠ rbrace := hb n1 (List.mem_cons_self _ _)
    simp only [List.cons_append]
    rw [pyFmt, if_neg h1, ih (n1 :: acc) (fun x hx => hb x (List.mem_cons_of_mem _ hx))]
    simp [List.reverse_cons, List.append_assoc]

theorem pyFmt_field (kwargs : Kwargs) (nm rest : List Char) (v : PyStr)
    (hnb : ∀ c ∈ nm, c ≠ rbrace) (hhd : nm.head? ≠ some lbrace)
    (hv : kwLookup kwargs nm = some v) :
    pyFmt kwargs none (lbrace :: (nm ++ rbrace :: rest))
      = (fun s => v ++ s) <$> pyFmt kwargs none rest := by
  cases nm with
  | nil =>
    simp only [List.nil_append]
    rw [pyFmt, if_pos rfl, if_neg (by decide : ¬ rbrace = lbrace)]
    have hs := pyFmt_field_scan kwargs [] rest [] (fun c hc => absurd hc (by simp))
    simp only [List.nil_append, List.append_nil, List.reverse_nil] at hs
    rw [hs, hv]
    rfl
  | cons n1 nm' =>
    have h1 : n1 ≠ lbrace := by
      intro hh
      exact hhd (by simp [hh])
    simp only [List.cons_append]
    rw [pyFmt, if_pos rfl, if_neg h1]
    have hs := pyFmt_field_scan kwargs (n1 :: nm') rest [] hnb
    simp only [List.cons_append, List.reverse_nil, List.nil_append] at hs
    rw [hs, hv]
    rfl

/-! The fixed literal segments of the `ANALYZE_REVIEWS` user template. -/

def CONSENSUS_MID : PyStr :=
  (("Below are reader reviews for this book:\n\n").data)
    ++ (("--- REVIEWS (START) ---\n").data)

def CONSENSUS_TAIL : PyStr :=
  (("\n").data) ++ (("--- REVIEWS (END) ---\n\n").data)
    ++ (("Synthesize these into an updated consensus summary:").data)

theorem pyFmt_literal_closed (kwargs : Kwargs) (lit : List Char)
    (hb : ∀ c ∈ lit, c ≠ lbrace ∧ c ≠ rbrace) :
    pyFmt kwargs none lit = Except.ok lit := by
  have h := pyFmt_literal kwargs lit [] hb
  rw [List.append_nil] at h
  rw [h, pyFmt]
  simp

set_option maxRecDepth 20000 in
theorem consensus_template_decomp : ANALYZE_REVIEWS.user_template
    = lbrace :: ((("previous_consensus_section").data) ++ rbrace ::
        (CONSENSUS_MID ++ (lbrace :: ((("reviews_text").data)
          ++ rbrace :: CONSENSUS_TAIL)))) := by
  decide

set_option maxRecDepth 20000 in
theorem consensus_user_eq (reviews_text prev : PyStr) :
    pyFmt [((("reviews_text").data), reviews_text),
           ((("previous_consensus_section").data), prev)] none
        ANALYZE_REVIEWS.user_template
      = Except.ok (prev ++ (CONSENSUS_MID ++ (reviews_text ++ CONSENSUS_TAIL))) := by
  rw [consensus_template_decomp]
  rw [pyFmt_field _ _ _ prev (by decide) (by decide)
    (by rw [kwLookup, if_neg (by decide), kwLookup, if_pos rfl])]
  rw [pyFmt_literal _ CONSENSUS_MID _ (by decide)]
  rw [pyFmt_field _ _ _ reviews_text (by decide) (by decide)
    (by rw [kwLookup, if_pos rfl])]
  rw [pyFmt_literal_closed _ CONSENSUS_TAIL (by decide)]
  rfl

/-- Truncation is the identity on inputs within the token budget. -/
theorem truncate_to_tokens_of_le (text : PyStr) (lim : Nat)
    (h : text.length ≤ lim * 4) : truncate_to_tokens text lim = text := by
  simp only [truncate_to_tokens, CHARS_PER_TOKEN]
  rw [if_pos (by omega)]

/-- Every element of a joined list appears verbatim in the join. -/
theorem pyJoin_infix (sep : PyStr) (xs : List PyStr) (r : PyStr) (hr : r ∈ xs) :
    ∃ pre post, pyJoin sep xs = pre ++ (r ++ post) := by
  induction xs with
  | nil => cases hr
  | cons x rest ih =>
    cases rest with
    | nil =>
      have hx : r = x := by simpa using hr
      subst hx
      exact ⟨[], [], by simp [pyJoin]⟩
    | cons y rest2 =>
      rcases List.mem_cons.mp hr with hx | hmem
      · subst hx
        exact ⟨[], sep ++ pyJoin sep (y :: rest2), by simp [pyJoin, List.append_assoc]⟩
      · obtain ⟨pre, post, hpp⟩ := ih hmem
        exact ⟨x ++ sep ++ pre, post, by simp [pyJoin, hpp, List.append_assoc]⟩

/-- The previous-consensus section is empty exactly for a falsy
`current_consensus` (absent or empty string). -/
theorem previousSection_empty_iff (c : Option PyStr) :
    previousSection c = [] ↔ (c = none ∨ c = some []) := by
  cases c with
  | none => simp [previousSection]
  | some s =>
    cases s with
    | nil => simp [previousSection]
    | cons a s' => simp [previousSection]

/-- A truthy previous consensus is framed with the update instruction. -/
theorem previousSection_update_instruction (s : PyStr) (hs : s ≠ []) :
    ∃ pre, previousSection (some s)
      = pre ++ (("Update the above consensus with the new reviews below.\n\n").data) := by
  refine ⟨(("--- PREVIOUS CONSENSUS (START) ---\n").data) ++ s
    ++ (("\n--- PREVIOUS CONSENSUS (END) ---\n\n").data), ?_⟩
  simp [previousSection, hs, List.append_assoc]

/-- C5 (amended): `render_review_consensus_prompt` always succeeds; the
user message is the previous-consensus section, the fixed reviews header,
the §4.1-truncation (to the consensus template's input token limit) of the
in-order concatenation of the per-review blocks, and the fixed tail; the
previous-consensus section is present iff a non-empty previous consensus
was supplied (Python truthiness), and then carries the update instruction;
each review's rating/text block occurs verbatim in the concatenated input,
which is passed whole when within the token budget. -/
theorem consensus_prompt_structure (reviews : List ReviewIn)
    (current_consensus : Option PyStr) :
    render_review_consensus_prompt reviews current_consensus
      = Except.ok
          { system := ANALYZE_REVIEWS.system,
            user := previousSection current_consensus
              ++ (CONSENSUS_MID
              ++ (truncate_to_tokens
                    (pyJoin (("\n\n").data) (reviews.map reviewBlock))
                    ANALYZE_REVIEWS.input_token_limit
              ++ CONSENSUS_TAIL)) }
    ∧ (previousSection current_consensus = [] ↔
        (current_consensus = none ∨ current_consensus = some []))
    ∧ (∀ s, current_consensus = some s → s ≠ [] →
        ∃ pre, previousSection current_consensus
          = pre ++ (("Update the above consensus with the new reviews below.\n\n").data))
    ∧ (∀ r ∈ reviews, ∃ pre post,
        pyJoin (("\n\n").data) (reviews.map reviewBlock)
          = pre ++ (reviewBlock r ++ post))
    ∧ ((pyJoin (("\n\n").data) (reviews.map reviewBlock)).length
          ≤ ANALYZE_REVIEWS.input_token_limit * 4 →
        truncate_to_tokens (pyJoin (("\n\n").data) (reviews.map reviewBlock))
            ANALYZE_REVIEWS.input_token_limit
          = pyJoin (("\n\n").data) (reviews.map reviewBlock)) := by
  refine ⟨?_, previousSection_empty_iff current_consensus, ?_, ?_, ?_⟩
  · simp only [render_review_consensus_prompt, PromptTemplate.render_with_truncation,
      PromptTemplate.render]
    rw [if_pos (by rw [kwLookup, if_pos rfl]; rfl)]
    rw [show List.map (fun kv =>
          if kv.1 = (("reviews_text").data)
          then (kv.1, truncate_to_tokens kv.2 ANALYZE_REVIEWS.input_token_limit)
          else kv)
        [((("reviews_text").data),
            pyJoin (("\n\n").data) (reviews.map reviewBlock)),
         ((("previous_consensus_section").data), previousSection current_consensus)]
      = [((("reviews_text").data),
            truncate_to_tokens (pyJoin (("\n\n").data) (reviews.map reviewBlock))
              ANALYZE_REVIEWS.input_token_limit),
         ((("previous_consensus_section").data), previousSection current_consensus)]
      from by
        simp only [List.map_cons, List.map_nil, eq_self_iff_true, if_true]
        rw [if_neg (by decide)]]
    rw [consensus_user_eq]
    rfl
  · intro s hc hs
    subst hc
    exact previousSection_update_instruction s hs
  · intro r hr
    exact pyJoin_infix _ _ _ (List.mem_map_of_mem reviewBlock hr)
  · intro hlen
    exact truncate_to_tokens_of_le _ _ hlen

set_option maxRecDepth 20000 in
/-- Witness for C5 at one review and previous consensus `"old"`. -/
theorem consensus_prompt_structure_witness :
    render_review_consensus_prompt [⟨5, ("great").data⟩] (some (("old").data))
      = Except.ok
          { system := ANALYZE_REVIEWS.system,
            user := previousSection (some (("old").data))
              ++ (CONSENSUS_MID
              ++ (truncate_to_tokens
                    (pyJoin (("\n\n").data)
                      ([(⟨5, ("great").data⟩ : ReviewIn)].map reviewBlock))
                    ANALYZE_REVIEWS.input_token_limit
              ++ CONSENSUS_TAIL)) }
    ∧ (previousSection (some (("old").data)) = [] ↔
        (some (("old").data) = none ∨ some (("old").data) = some [])) := by
  have h := consensus_prompt_structure [⟨5, ("great").data⟩] (some (("old").data))
  exact ⟨h.1, h.2.1⟩

/-- Projection of the user message out of a render result. -/
def userOf : Except PyExc Messages → PyStr
  | .ok m => m.user
  | .error _ => []

instance {ε α : Type} [DecidableEq ε] [DecidableEq α] :
    DecidableEq (Except ε α) := fun a b =>
  match a, b with
  | .ok x, .ok y =>
    if h : x = y then .isTrue (by rw [h])
    else .isFalse (by intro hh; cases hh; exact h rfl)
  | .error x, .error y =>
    if h : x = y then .isTrue (by rw [h])
    else .isFalse (by intro hh; cases hh; exact h rfl)
  | .ok _, .error _ => .isFalse (by intro hh; cases hh)
  | .error _, .ok _ => .isFalse (by intro hh; cases hh)

/-- Whether `pat` occurs as a contiguous substring of the second list. -/
def containsSub (pat : List Char) : List Char → Bool
  | [] => pat.isEmpty
  | c :: rest => pat.isPrefixOf (c :: rest) || containsSub pat rest

set_option maxRecDepth 100000 in
/-- Counterexample to C5 as stated: with a present-but-empty previous
consensus (`current_consensus = some ""`), the rendered user message
contains no previous-consensus section at all — Python's
`if current_consensus:` treats the empty string like `None` — although a
previous consensus is present. -/
theorem consensus_prompt_empty_previous_counterexample :
    (some ([] : PyStr)).isSome = true
    ∧ render_review_consensus_prompt [⟨5, ("great").data⟩] (some [])
        = render_review_consensus_prompt [⟨5, ("great").data⟩] none
    ∧ containsSub (("PREVIOUS CONSENSUS").data)
        (userOf (render_review_consensus_prompt [⟨5, ("great").data⟩] (some [])))
      = false := by
  decide

/-! The mock LLM adapter (src/app/adapters/llm/mock.py).  The
`asyncio.sleep` latency calls have no effect on the returned value and are
not modelled; `logger.info` calls likewise. -/

/-- Python whitespace for `str.split()` (the ASCII whitespace code
points). -/
def isPySpace (c : Char) : Bool :=
  c = ' ' || c = '\t' || c = '\n' || c = '\r' || c = '\x0b' || c = '\x0c'

/-- One step of splitting: start a new run at whitespace, otherwise extend
the current run. -/
def pySplitStep (c : Char) (acc : List (List Char)) : List (List Char) :=
  if isPySpace c then [] :: acc
  else
    match acc with
    | [] => [[c]]
    | w :: rest => (c :: w) :: rest

/-- Python `str.split()` with no separator: the maximal whitespace-free
runs, discarding empties. -/
def pySplitWs (l : List Char) : List (List Char) :=
  (l.foldr pySplitStep []).filter (fun w => !w.isEmpty)

/-- The fixed tail of the mock summary (source literals, mock.py 26-36). -/
def MOCK_SUMMARY_TAIL : PyStr :=
  (("It explores compelling themes through well-structured prose, presenting "
    ++ "arguments that build methodically from foundational concepts to complex "
    ++ "conclusions.\n\n"
    ++ "The author demonstrates deep expertise in the subject matter, weaving "
    ++ "together narrative elements with analytical insights. Key themes include "
    ++ "the interplay between theory and practice, the evolution of ideas over "
    ++ "time, and their practical implications for readers.\n\n"
    ++ "This work is recommended for both casual readers seeking an accessible "
    ++ "introduction and scholars looking for a comprehensive reference. The "
    ++ "writing style balances academic rigor with engaging readability.")).data

/-- Source: `MockLLMAdapter.summarize_book` (the f-string of mock.py
23-28 followed by the literal tail). -/
def MockLLMAdapter.summarize_book (text : PyStr) : PyStr :=
  (("This book contains approximately ").data)
    ++ ((toString (pySplitWs text).length).data)
    ++ ((" words across ").data)
    ++ (("its content (estimated ").data)
    ++ ((toString (estimate_tokens text)).data)
    ++ ((" tokens). ").data)
    ++ MOCK_SUMMARY_TAIL

/-- Source: `avg = sum(r["rating"] for r in reviews) / count if count else
0.0`.  Python float arithmetic is modelled as exact rationals: the sums
are exact in IEEE doubles, and the threshold comparisons below against
4.0/3.0/2.0 agree with the exact rational values because `sum/count`
cannot fall within one ulp of an integer threshold without equalling
it. -/
def avgRating (reviews : List ReviewIn) : ℚ :=
  if reviews.length = 0 then 0
  else ((reviews.map (fun r => (r.rating : ℚ))).sum) / (reviews.length : ℚ)

/-- Source: the sentiment ladder of mock.py 46-53. -/
def sentimentOf (avg : ℚ) : PyStr :=
  if 4 ≤ avg then (("overwhelmingly positive").data)
  else if 3 ≤ avg then (("generally positive with some reservations").data)
  else if 2 ≤ avg then (("mixed, with both praise and criticism").data)
  else (("predominantly critical").data)

/-- Round half to even, as CPython's float formatting does. -/
def roundHalfEven (x : ℚ) : ℤ :=
  if Int.fract x < 1/2 then ⌊x⌋
  else if 1/2 < Int.fract x then ⌊x⌋ + 1
  else if ⌊x⌋ % 2 = 0 then ⌊x⌋ else ⌊x⌋ + 1

/-- Python `f"{x:.1f}"` for the nonnegative averages arising here:
round-half-even at one decimal (IEEE halfway artifacts aside). -/
def pyFormat1f (x : ℚ) : PyStr :=
  let n := (roundHalfEven (x * 10)).toNat
  ((toString (n / 10)).data) ++ ((".").data) ++ ((toString (n % 10)).data)

/-- The fixed tail of the mock consensus (source literals, mock.py
61-66). -/
def MOCK_CONSENSUS_TAIL : PyStr :=
  (("Reviewers commonly praise the depth of content and quality of writing. "
    ++ "Some readers note that certain sections require careful attention, while "
    ++ "others appreciate the thoroughness of the coverage. The book's structure "
    ++ "receives generally positive feedback.\n\n"
    ++ "This book is recommended for readers with a genuine interest in the "
    ++ "subject matter who appreciate detailed, well-researched content.")).data

/-- Source: `MockLLMAdapter.analyze_reviews` (mock.py 38-67); the
`current_consensus` argument is unused by the mock. -/
def MockLLMAdapter.analyze_reviews (reviews : List ReviewIn)
    (_current_consensus : Option PyStr) : PyStr :=
  (("Based on ").data)
    ++ ((toString reviews.length).data)
    ++ ((" reader reviews with an average rating of ").data)
    ++ pyFormat1f (avgRating reviews)
    ++ (("/5, the overall sentiment is ").data)
    ++ sentimentOf (avgRating reviews)
    ++ ((".\n\n").data)
    ++ MOCK_CONSENSUS_TAIL

/-- C7: the mock provider is deterministic and derives its output from
simple statistics of its input: the summary embeds the input's word count
and estimated token count and depends on the input only through those two
statistics; for every non-empty review list the consensus embeds the
review count and the formatted average rating and depends on the input
only through them. -/
theorem mock_adapter_stats (text : PyStr) (reviews : List ReviewIn)
    (current : Option PyStr) (_hne : reviews ≠ []) :
    (∃ pre post, MockLLMAdapter.summarize_book text
        = pre ++ (((toString (pySplitWs text).length).data) ++ post))
    ∧ (∃ pre post, MockLLMAdapter.summarize_book text
        = pre ++ (((toString (estimate_tokens text)).data) ++ post))
    ∧ (∀ t2 : PyStr, (pySplitWs text).length = (pySplitWs t2).length →
        estimate_tokens text = estimate_tokens t2 →
        MockLLMAdapter.summarize_book text = MockLLMAdapter.summarize_book t2)
    ∧ (∃ pre post, MockLLMAdapter.analyze_reviews reviews current
        = pre ++ (((toString reviews.length).data) ++ post))
    ∧ (∃ pre post, MockLLMAdapter.analyze_reviews reviews current
        = pre ++ (pyFormat1f (avgRating reviews) ++ post))
    ∧ (∀ (rs2 : List ReviewIn) (c2 : Option PyStr),
        reviews.length = rs2.length → avgRating reviews = avgRating rs2 →
        MockLLMAdapter.analyze_reviews reviews current
          = MockLLMAdapter.analyze_reviews rs2 c2) := by
  refine ⟨?_, ?_, ?_, ?_, ?_, ?_⟩
  · exact ⟨(("This book contains approximately ").data),
      ((" words across ").data) ++ (("its content (estimated ").data)
        ++ ((toString (estimate_tokens text)).data) ++ ((" tokens). ").data)
        ++ MOCK_SUMMARY_TAIL,
      by simp [MockLLMAdapter.summarize_book, List.append_assoc]⟩
  · exact ⟨(("This book contains approximately ").data)
        ++ ((toString (pySplitWs text).length).data)
        ++ ((" words across ").data) ++ (("its content (estimated ").data),
      ((" tokens). ").data) ++ MOCK_SUMMARY_TAIL,
      by simp [MockLLMAdapter.summarize_book, List.append_assoc]⟩
  · intro t2 h1 h2
    simp only [MockLLMAdapter.summarize_book, h1, h2]
  · exact ⟨(("Based on ").data),
      ((" reader reviews with an average rating of ").data)
        ++ pyFormat1f (avgRating reviews)
        ++ (("/5, the overall sentiment is ").data)
        ++ sentimentOf (avgRating reviews) ++ ((".\n\n").data)
        ++ MOCK_CONSENSUS_TAIL,
      by simp [MockLLMAdapter.analyze_reviews, List.append_assoc]⟩
  · exact ⟨(("Based on ").data) ++ ((toString reviews.length).data)
        ++ ((" reader reviews with an average rating of ").data),
      (("/5, the overall sentiment is ").data)
        ++ sentimentOf (avgRating reviews) ++ ((".\n\n").data)
        ++ MOCK_CONSENSUS_TAIL,
      by simp [MockLLMAdapter.analyze_reviews, List.append_assoc]⟩
  · intro rs2 c2 h1 h2
    simp only [MockLLMAdapter.analyze_reviews, h1, h2]

/-- Witness for C7 at `"hello world"` and a one-review list. -/
theorem mock_adapter_stats_witness :
    (∃ pre post, MockLLMAdapter.summarize_book (("hello world").data)
        = pre ++ (((toString (pySplitWs (("hello world").data)).length).data) ++ post))
    ∧ (∃ pre post,
        MockLLMAdapter.analyze_reviews [⟨5, ("great").data⟩] none
          = pre ++ (((toString ([(⟨5, ("great").data⟩ : ReviewIn)]).length).data)
              ++ post)) := by
  have h := mock_adapter_stats (("hello world").data) [⟨5, ("great").data⟩] none
    (by simp)
  exact ⟨h.1, h.2.2.2.1⟩

/-- C9: the mock `analyze_reviews` is total on the empty review list: the
conditional guard avoids the division by zero, the average is treated as
0.0 (and formats as "0.0"), and the result is a non-empty consensus string
that classifies the sentiment as predominantly critical. -/
theorem mock_analyze_empty_total :
    avgRating [] = 0
    ∧ MockLLMAdapter.analyze_reviews [] none ≠ []
    ∧ (∃ pre post, MockLLMAdapter.analyze_reviews [] none
        = pre ++ ((("predominantly critical").data) ++ post))
    ∧ pyFormat1f (avgRating []) = (("0.0").data) := by
  have havg : avgRating [] = 0 := rfl
  have hsent : sentimentOf (avgRating []) = (("predominantly critical").data) := by
    rw [havg]
    norm_num [sentimentOf]
  refine ⟨havg, ?_, ?_, ?_⟩
  · intro h
    simp only [MockLLMAdapter.analyze_reviews] at h
    have hlen := congrArg List.length h
    have h9 : ((("Based on ").data)).length = 9 := rfl
    simp only [List.length_append, List.length_nil, h9] at hlen
    omega
  · refine ⟨(("Based on ").data) ++ ((toString ([] : List ReviewIn).length).data)
      ++ ((" reader reviews with an average rating of ").data)
      ++ pyFormat1f (avgRating [])
      ++ (("/5, the overall sentiment is ").data),
      ((".\n\n").data) ++ MOCK_CONSENSUS_TAIL, ?_⟩
    simp [MockLLMAdapter.analyze_reviews, hsent, List.append_assoc]
  · rw [havg]
    norm_num [pyFormat1f, roundHalfEven]
    decide

/-! The Ollama and OpenAI adapters (src/app/adapters/llm/ollama.py 23-40,
src/app/adapters/llm/openai_adapter.py 23-37).  `_generate` performs one
HTTP round trip, modelled by an abstract transport outcome. -/

/-- The outcome of the underlying HTTP request: a response with a status
code (carrying, for successful responses, the parsed message content), or
a network failure before any response. -/
inductive TransportOutcome where
  | response (code : Nat) (content : PyStr)
  | networkFailure
deriving DecidableEq

/-- Source: `OllamaLLMAdapter._generate` posts to `/api/chat` and calls
`resp.raise_for_status()`, which raises `httpx.HTTPStatusError` for every
non-2xx status (informational and redirect responses included, not only
4xx/5xx); network failures surface as httpx transport errors.  No handler
is installed, so these transport exceptions propagate unchanged to the
caller. -/
def OllamaLLMAdapter._generate (_system _user : PyStr) (_max_tokens : Nat)
    (outcome : TransportOutcome) : Except PyExc PyStr :=
  match outcome with
  | .response code content =>
    if 200 ≤ code ∧ code < 300 then .ok content
    else .error (.httpxHTTPStatusError code)
  | .networkFailure => .error .httpxTransportError

/-- Source: `OpenAILLMAdapter._generate` calls the OpenAI SDK, which
raises its `APIStatusError` subclasses for every non-success (non-2xx)
response and `APIConnectionError` for network failures.  No handler is
installed, so the SDK exceptions propagate unchanged to the caller. -/
def OpenAILLMAdapter._generate (_system _user : PyStr) (_max_tokens : Nat)
    (outcome : TransportOutcome) : Except PyExc PyStr :=
  match outcome with
  | .response code content =>
    if 200 ≤ code ∧ code < 300 then .ok content
    else .error (.openaiAPIStatusError code)
  | .networkFailure => .error .openaiAPIConnectionError

/-- Modelled from the spec: the unified `GenerationFailed{retryable}`
condition the spec requires generation adapters to raise.  The repository
defines no such class; the counterexample below exhibits the divergence. -/
structure GenerationFailed where
  retryable : Bool
deriving DecidableEq

/-- C3 (amended): each adapter propagates the transport's own exceptions
unchanged: for any non-2xx status Ollama raises `httpx.HTTPStatusError`
with that code (informational, redirect, 4xx and 5xx alike, with no
retryable flag) and OpenAI raises the SDK's `APIStatusError`; on a
network failure they raise the respective connection errors; on a 2xx
response both return the content. -/
theorem adapters_propagate_transport_errors (system user content : PyStr)
    (max_tokens code : Nat) :
    (¬(200 ≤ code ∧ code < 300) →
      OllamaLLMAdapter._generate system user max_tokens (.response code content)
        = Except.error (PyExc.httpxHTTPStatusError code)
      ∧ OpenAILLMAdapter._generate system user max_tokens (.response code content)
        = Except.error (PyExc.openaiAPIStatusError code))
    ∧ (200 ≤ code ∧ code < 300 →
      OllamaLLMAdapter._generate system user max_tokens (.response code content)
        = Except.ok content
      ∧ OpenAILLMAdapter._generate system user max_tokens (.response code content)
        = Except.ok content)
    ∧ OllamaLLMAdapter._generate system user max_tokens .networkFailure
        = Except.error PyExc.httpxTransportError
    ∧ OpenAILLMAdapter._generate system user max_tokens .networkFailure
        = Except.error PyExc.openaiAPIConnectionError := by
  refine ⟨fun h => ⟨?_, ?_⟩, fun h => ⟨?_, ?_⟩, rfl, rfl⟩ <;>
    simp [OllamaLLMAdapter._generate, OpenAILLMAdapter._generate, h]

/-- Witness for C3 (amended) at a 503, a 404 and a 307 response. -/
theorem adapters_propagate_transport_errors_witness :
    OllamaLLMAdapter._generate [] [] 512 (.response 503 [])
      = Except.error (PyExc.httpxHTTPStatusError 503)
    ∧ OpenAILLMAdapter._generate [] [] 512 (.response 404 [])
      = Except.error (PyExc.openaiAPIStatusError 404)
    ∧ OllamaLLMAdapter._generate [] [] 512 (.response 307 [])
      = Except.error (PyExc.httpxHTTPStatusError 307) := by
  have h1 := (adapters_propagate_transport_errors [] [] [] 512 503).1 (by omega)
  have h2 := (adapters_propagate_transport_errors [] [] [] 512 404).1 (by omega)
  have h3 := (adapters_propagate_transport_errors [] [] [] 512 307).1 (by omega)
  exact ⟨h1.1, h2.2, h3.1⟩

/-- Counterexample to C3 as stated: on the same upstream 500 error, the
local-inference adapter surfaces `httpx.HTTPStatusError` while the
hosted-API adapter surfaces the SDK's `APIStatusError` — two distinct
conditions, neither the single `GenerationFailed` with a retryable flag
that the spec requires (no such class exists in the source). -/
theorem adapters_no_unified_error_counterexample :
    OllamaLLMAdapter._generate [] [] 512 (.response 500 [])
      = Except.error (PyExc.httpxHTTPStatusError 500)
    ∧ OpenAILLMAdapter._generate [] [] 512 (.response 500 [])
      = Except.error (PyExc.openaiAPIStatusError 500)
    ∧ PyExc.httpxHTTPStatusError 500 ≠ PyExc.openaiAPIStatusError 500 := by
  decide

/-! Consensus versioning.  The `Book` columns come from
src/app/domain/models.py (nullable `summary` and `review_consensus`,
`consensus_version` integer with column default 0).  The coordinator that
writes them is not among the sources, so its write operations are
modelled from the spec (§4.3 step 4 and §6 `compareAndSwapConsensus`). -/

/-- The intelligence-relevant state of one `Book` row (models.py 41-55);
`consensus_version` takes its column default 0 on creation. -/
structure BookIntel where
  summary : Option PyStr := none
  review_consensus : Option PyStr := none
  consensus_version : Nat := 0
deriving DecidableEq

/-- A freshly created book row, with the column defaults. -/
def newBook : BookIntel := {}

/-- Modelled from the spec: `compareAndSwapConsensus(id, expectedVersion,
newText) → bool` (§6): write the new consensus text and increment
`consensus_version` only if the stored version still equals the expected
version; otherwise change nothing and report failure (§4.3 step 4). -/
def compareAndSwapConsensus (expected : Nat) (newText : PyStr)
    (b : BookIntel) : Bool × BookIntel :=
  if b.consensus_version = expected then
    (true, { b with review_consensus := some newText,
                    consensus_version := b.consensus_version + 1 })
  else (false, b)

/-- Modelled from the spec: the operations touching a book's derived
fields — a consensus CAS commit attempt, the summary write (§4.3), a
failed regeneration (which leaves the last good consensus untouched), and
a read. -/
inductive CoordOp where
  | casConsensus (expected : Nat) (newText : PyStr)
  | writeSummary (text : PyStr)
  | regenFailed
  | read
deriving DecidableEq

def applyOp : CoordOp → BookIntel → BookIntel
  | .casConsensus e t, b => (compareAndSwapConsensus e t b).2
  | .writeSummary t, b => { b with summary := some t }
  | .regenFailed, b => b
  | .read, b => b

/-- Whether an operation is a consensus regeneration that commits. -/
def opCommits : CoordOp → BookIntel → Bool
  | .casConsensus e t, b => (compareAndSwapConsensus e t b).1
  | _, _ => false

def runOps : List CoordOp → BookIntel → BookIntel
  | [], b => b
  | op :: rest, b => runOps rest (applyOp op b)

/-- The number of successful consensus commits along a run. -/
def countCommits : List CoordOp → BookIntel → Nat
  | [], _ => 0
  | op :: rest, b =>
    (if opCommits op b then 1 else 0) + countCommits rest (applyOp op b)

/-- C2: `consensus_version` starts at 0, changes by exactly 1 on each
committed consensus regeneration and by 0 on every other operation, and
over any operation sequence it equals the starting version plus the
number of successful commits — in particular it never decreases. -/
theorem consensus_version_monotone :
    newBook.consensus_version = 0
    ∧ (∀ (op : CoordOp) (b : BookIntel),
        (applyOp op b).consensus_version
          = b.consensus_version + (if opCommits op b then 1 else 0))
    ∧ (∀ (ops : List CoordOp) (b : BookIntel),
        (runOps ops b).consensus_version
          = b.consensus_version + countCommits ops b)
    ∧ (∀ (ops : List CoordOp) (b : BookIntel),
        b.consensus_version ≤ (runOps ops b).consensus_version) := by
  have hstep : ∀ (op : CoordOp) (b : BookIntel),
      (applyOp op b).consensus_version
        = b.consensus_version + (if opCommits op b then 1 else 0) := by
    intro op b
    cases op with
    | casConsensus e t =>
      simp only [applyOp, opCommits, compareAndSwapConsensus]
      split <;> simp
    | writeSummary t => simp [applyOp, opCommits]
    | regenFailed => simp [applyOp, opCommits]
    | read => simp [applyOp, opCommits]
  have hrun : ∀ (ops : List CoordOp) (b : BookIntel),
      (runOps ops b).consensus_version
        = b.consensus_version + countCommits ops b := by
    intro ops
    induction ops with
    | nil => intro b; simp [runOps, countCommits]
    | cons op rest ih =>
      intro b
      simp only [runOps, countCommits]
      rw [ih, hstep]
      omega
  exact ⟨rfl, hstep, hrun, fun ops b => by rw [hrun]; omega⟩

/-! The review service (src/app/services/review.py 19-56). -/

/-- A `Borrow` row (models.py 61-71): `returned_at` null means active. -/
structure BorrowRow where
  user_id : Nat
  book_id : Nat
  returned_at : Option Nat
deriving DecidableEq

/-- A `Review` row (models.py 74-85). -/
structure ReviewRow where
  user_id : Nat
  book_id : Nat
  rating : Nat
  text : PyStr
deriving DecidableEq

/-- A `UserInteraction` row (models.py 99-112): `interaction_type` is one
of the enum strings; `rating` is a nullable float (`float(int)` is exact,
modelled as an exact rational). -/
structure InteractionRow where
  user_id : Nat
  book_id : Nat
  interaction_type : PyStr
  rating : Option ℚ
deriving DecidableEq

/-- The session-visible state: the rows of the three tables the service
touches. -/
structure SessionState where
  borrows : List BorrowRow
  reviews : List ReviewRow
  interactions : List InteractionRow
deriving DecidableEq

/-- SQLAlchemy `Result.scalar_one_or_none()`: `none` for zero rows, the
row for exactly one, `MultipleResultsFound` raised for more than one. -/
def scalar_one_or_none {α : Type} (rows : List α) : Except PyExc (Option α) :=
  match rows with
  | [] => .ok none
  | [r] => .ok (some r)
  | _ :: _ :: _ => .error .multipleResultsFound

/-- Source: `ReviewService.create_review`: select the user's borrows of
the book; 403 if none; otherwise add one `Review` row and one
`UserInteraction` of type "review" carrying the rating as a float, and
return the review.  The second component is the session state after the
call — unchanged when an exception is raised, since the raise happens
before any `session.add`. -/
def ReviewService.create_review (db : SessionState) (book_id user_id : Nat)
    (rating : Nat) (text : PyStr) : Except PyExc ReviewRow × SessionState :=
  let rows := db.borrows.filter
    (fun b => b.book_id == book_id && b.user_id == user_id)
  match scalar_one_or_none rows with
  | .error e => (.error e, db)
  | .ok none =>
    (.error (.httpException 403
        (("You must borrow a book before reviewing it").data)), db)
  | .ok (some _) =>
    let review : ReviewRow :=
      { user_id := user_id, book_id := book_id, rating := rating, text := text }
    let interaction : InteractionRow :=
      { user_id := user_id, book_id := book_id,
        interaction_type := ("review").data, rating := some (rating : ℚ) }
    (.ok review,
      { db with reviews := db.reviews ++ [review],
                interactions := db.interactions ++ [interaction] })

/-- C10: `create_review` raises HTTP 403 if and only if no Borrow row
(active or returned) exists for the (user, book) pair; on any raised
exception the session is unchanged (no Review and no UserInteraction
added); on success exactly one Review and exactly one UserInteraction of
type "review" with the rating as a float are appended, and the borrows
are untouched. -/
theorem create_review_borrow_constraint (db : SessionState)
    (book_id user_id rating : Nat) (text : PyStr) :
    ((∃ d, (ReviewService.create_review db book_id user_id rating text).1
        = Except.error (PyExc.httpException 403 d))
      ↔ ∀ b ∈ db.borrows, ¬(b.book_id = book_id ∧ b.user_id = user_id))
    ∧ (∀ e, (ReviewService.create_review db book_id user_id rating text).1
        = Except.error e →
        (ReviewService.create_review db book_id user_id rating text).2 = db)
    ∧ (∀ r, (ReviewService.create_review db book_id user_id rating text).1
        = Except.ok r →
        r = { user_id := user_id, book_id := book_id, rating := rating,
              text := text }
        ∧ (ReviewService.create_review db book_id user_id rating text).2
          = { db with
              reviews := db.reviews ++ [r],
              interactions := db.interactions
                ++ [{ user_id := user_id, book_id := book_id,
                      interaction_type := ("review").data,
                      rating := some (rating : ℚ) }] }) := by
  have hiff : (db.borrows.filter
        (fun b => b.book_id == book_id && b.user_id == user_id) = [])
      ↔ ∀ b ∈ db.borrows, ¬(b.book_id = book_id ∧ b.user_id = user_id) := by
    rw [List.filter_eq_nil_iff]
    apply forall_congr'
    intro b
    apply imp_congr Iff.rfl
    simp [Bool.and_eq_true, beq_iff_eq]
  have hmem : ∀ x ∈ db.borrows.filter
      (fun b => b.book_id == book_id && b.user_id == user_id),
      x ∈ db.borrows ∧ (x.book_id = book_id ∧ x.user_id = user_id) := by
    intro x hx
    have := List.mem_filter.mp hx
    refine ⟨this.1, ?_⟩
    have hp := this.2
    simp [Bool.and_eq_true, beq_iff_eq] at hp
    exact hp
  cases hm : db.borrows.filter
      (fun b => b.book_id == book_id && b.user_id == user_id) with
  | nil =>
    have hred : ReviewService.create_review db book_id user_id rating text
        = (Except.error (PyExc.httpException 403
            (("You must borrow a book before reviewing it").data)), db) := by
      simp only [ReviewService.create_review, hm, scalar_one_or_none]
    refine ⟨?_, ?_, ?_⟩
    · rw [hred]
      constructor
      · intro _
        exact hiff.mp hm
      · intro _
        exact ⟨_, rfl⟩
    · intro e _
      rw [hred]
    · intro r hr
      rw [hred] at hr
      simp at hr
  | cons b1 brest =>
    have hb1 := hmem b1 (by rw [hm]; exact List.mem_cons_self _ _)
    cases brest with
    | nil =>
      have hred : ReviewService.create_review db book_id user_id rating text
          = (Except.ok
              { user_id := user_id, book_id := book_id, rating := rating,
                text := text },
             { db with
               reviews := db.reviews
                 ++ [{ user_id := user_id, book_id := book_id,
                       rating := rating, text := text }],
               interactions := db.interactions
                 ++ [{ user_id := user_id, book_id := book_id,
                       interaction_type := ("review").data,
                       rating := some (rating : ℚ) }] }) := by
        simp only [ReviewService.create_review, hm, scalar_one_or_none]
      refine ⟨?_, ?_, ?_⟩
      · rw [hred]
        constructor
        · rintro ⟨d, hd⟩
          simp at hd
        · intro hall
          exact absurd hb1.2 (hall b1 hb1.1)
      · intro e he
        rw [hred] at he
        simp at he
      · intro r hr
        rw [hred] at hr
        simp only at hr
        cases hr
        rw [hred]
        exact ⟨rfl, rfl⟩
    | cons b2 brest2 =>
      have hred : ReviewService.create_review db book_id user_id rating text
          = (Except.error PyExc.multipleResultsFound, db) := by
        simp only [ReviewService.create_review, hm, scalar_one_or_none]
      refine ⟨?_, ?_, ?_⟩
      · rw [hred]
        constructor
        · rintro ⟨d, hd⟩
          simp at hd
        · intro hall
          exact absurd hb1.2 (hall b1 hb1.1)
      · intro e _
        rw [hred]
      · intro r hr
        rw [hred] at hr
        simp at hr

/-- A session with one (returned) borrow of book 1 by user 2, used in the
C10 witness. -/
def reviewDb0 : SessionState :=
  { borrows := [{ user_id := 2, book_id := 1, returned_at := some 7 }],
    reviews := [], interactions := [] }

/-- Witness for C10: with one past borrow, the review succeeds and exactly
one review row is appended. -/
theorem create_review_borrow_constraint_witness :
    (ReviewService.create_review reviewDb0 1 2 5 (("great").data)).1
      = Except.ok { user_id := 2, book_id := 1, rating := 5,
                    text := ("great").data }
    ∧ (ReviewService.create_review reviewDb0 1 2 5 (("great").data)).2.reviews
      = [{ user_id := 2, book_id := 1, rating := 5, text := ("great").data }] := by
  have h := create_review_borrow_constraint reviewDb0 1 2 5 (("great").data)
  have hok : (ReviewService.create_review reviewDb0 1 2 5 (("great").data)).1
      = Except.ok { user_id := 2, book_id := 1, rating := 5,
                    text := ("great").data } := by
    decide
  refine ⟨hok, ?_⟩
  rw [(h.2.2 _ hok).2]
  simp [reviewDb0]

end LuminaLib
